import Mathlib

/-!
Verification of the gatling-to-influxdb log parser core (src/parser/parser.go)
against its natural-language specification.

The Go source is shallowly embedded: pure fragments become Lean functions,
the polling/tailing loops become step functions folded over explicit lists of
poll observations, and Go int64 arithmetic is modelled on Int with explicit
wrapping where overflow matters.  Filesystem and clock inputs (Stat results,
time.Now values, context cancellation) are passed in as explicit data.
-/

namespace Gatling

/-! ## Line patterns (the regexp vars of parser.go lines 71-75)

Go regexp \s is the class [\t\n\f\r ]. -/

def isWordSpace (c : Char) : Bool :=
  c = ' ' || c = '\t' || c = '\n' || c = '\x0c' || c = '\r'

/-- Matcher for an anchored pattern KW\s : the input starts with the keyword
characters and the next character is a \s character.  Embeds Go regexps of the
shape ^USER\s etc. -/
def kwPrefixMatch : List Char → List Char → Bool
  | [], [] => false
  | [], c :: _ => isWordSpace c
  | _ :: _, [] => false
  | k :: ks, c :: rest => (k == c) && kwPrefixMatch ks rest

/-- Matcher for an unanchored pattern KW\s : some suffix of the input starts
with the keyword followed by a \s character.  Embeds the Go regexp GROUP\s,
which (unlike the other four line patterns) has no ^ anchor. -/
def substrKwMatch (kw : List Char) : List Char → Bool
  | [] => kwPrefixMatch kw []
  | c :: rest => kwPrefixMatch kw (c :: rest) || substrKwMatch kw rest

/-- Embeds userLine = regexp ^USER\s (parser.go line 71). -/
def userLine (s : List Char) : Bool :=
  kwPrefixMatch ['U', 'S', 'E', 'R'] s

/-- Embeds requestLine = regexp ^REQUEST\s (parser.go line 72). -/
def requestLine (s : List Char) : Bool :=
  kwPrefixMatch ['R', 'E', 'Q', 'U', 'E', 'S', 'T'] s

/-- Embeds groupLine = regexp GROUP\s, with no anchor (parser.go line 73). -/
def groupLine (s : List Char) : Bool :=
  substrKwMatch ['G', 'R', 'O', 'U', 'P'] s

/-- Embeds runLine = regexp ^RUN\s (parser.go line 74). -/
def runLine (s : List Char) : Bool :=
  kwPrefixMatch ['R', 'U', 'N'] s

/-- Embeds errorLine = regexp ^ERROR\s (parser.go line 75). -/
def errorLine (s : List Char) : Bool :=
  kwPrefixMatch ['E', 'R', 'R', 'O', 'R'] s

/-! ## Results-directory name pattern (parser.go line 54)

resultDirNamePattern is the Go regexp with anchors ^.+?-(\d{14})\d{3}$ .
A match exists iff the name splits as a nonempty prefix (of non-newline
characters, since an unflagged dot excludes newline), then a dash, then
exactly 17 decimal digits running to the end.  Because the 17 digits must end
the string, the dash position is forced to index length-18, so existence of a
match is equivalent to the positional check below (laziness of +? affects
which match is chosen, not whether one exists). -/

def resultDirNameMatch (s : List Char) : Bool :=
  decide (19 ≤ s.length) &&
  (match s.drop (s.length - 18) with
   | '-' :: ds => ds.all Char.isDigit
   | _ => false) &&
  (s.take (s.length - 18)).all (fun c => !(c == '\n'))

/-! ## Directory walk (walkFunc, parser.go lines 116-131)

filepath.Walk calls the callback as walkFn(path, info, err); when visiting a
path fails it passes a nil FileInfo together with the error.  The Go callback
reads info.IsDir() without checking err or info, and calling a method through
a nil os.FileInfo interface value panics; the embedding models that panic as
Except.error (). -/

structure FileInfo where
  name : List Char
  isDir : Bool
  modTimeUnix : Int
  deriving DecidableEq

inductive WalkRet
  | found (dir : List Char)
  | next
  deriving DecidableEq

/-- Embeds walkFunc.  st is the process start time in Unix seconds (the
package-level startTime captured at launch); the result WalkRet.found path
models setting logDir = path and returning the errFound sentinel, WalkRet.next
models returning nil so the walk continues. -/
def walkFunc (st : Int) (path : List Char) (info : Option FileInfo)
    (_walkErr : Option String) : Except Unit WalkRet :=
  match info with
  | none => Except.error ()
  | some fi =>
    if fi.isDir && resultDirNameMatch fi.name then
      if st - 60 < fi.modTimeUnix then Except.ok (WalkRet.found path)
      else Except.ok WalkRet.next
    else Except.ok WalkRet.next

/-- One walk attempt of lookupResultsDir (parser.go lines 152-158): the
traversal visits entries in order, stops at the first callback result errFound
and yields the recorded directory.  Entries are (path, FileInfo) pairs in
traversal order, all visited without stat errors. -/
def walkSelect (st : Int) : List (List Char × FileInfo) → Option (List Char)
  | [] => none
  | (p, fi) :: rest =>
    match walkFunc st p (some fi) none with
    | Except.ok (WalkRet.found d) => some d
    | _ => walkSelect st rest

/-- Characterization used to state the selection property: a directory entry
is a candidate when it is a directory, its name matches the results-directory
pattern and its modification time is strictly newer than start time minus the
60 second slack (the comparison the code actually performs). -/
def isCandidate (st : Int) (fi : FileInfo) : Bool :=
  fi.isDir && resultDirNameMatch fi.name && decide (st - 60 < fi.modTimeUnix)

/-! ## Timestamp conversion (timeFromUnixBytes, parser.go lines 201-209)

strconv.ParseInt(s, 10, 64) accepts an optional sign followed by at least one
decimal digit and fails on anything else or on values outside int64 range.
The conversion then computes timeStamp*oneMillisecond + rand.Int63n(oneMillisecond)
in int64 arithmetic, which wraps on overflow; wrap64 models that wrapping and
the random draw is passed in explicitly as jit. -/

def decDigitsVal : Nat → List Char → Option Nat
  | acc, [] => some acc
  | acc, c :: rest =>
    if c.isDigit then decDigitsVal (acc * 10 + (c.toNat - 48)) rest else none

def parseInt64 (s : List Char) : Option Int :=
  let signDigits : Bool × List Char :=
    match s with
    | '-' :: r => (true, r)
    | '+' :: r => (false, r)
    | r => (false, r)
  match signDigits.2 with
  | [] => none
  | ds =>
    match decDigitsVal 0 ds with
    | none => none
    | some n =>
      let v : Int := if signDigits.1 then -(n : Int) else (n : Int)
      if -(2 ^ 63) ≤ v ∧ v ≤ 2 ^ 63 - 1 then some v else none

/-- Two's-complement wrap of an integer into the int64 range. -/
def wrap64 (x : Int) : Int :=
  (x + 2 ^ 63) % 2 ^ 64 - 2 ^ 63

/-- Nanoseconds per millisecond, the oneMillisecond constant of parser.go. -/
def oneMillisecond : Int := 1000000

/-- Embeds timeFromUnixBytes: parse the bytes as a decimal int64 millisecond
timestamp, multiply into nanoseconds and add the random jitter draw jit
(rand.Int63n yields 0 ≤ jit < oneMillisecond), in wrapping int64 arithmetic.
The result is the nanosecond count handed to time.Unix(0, ·); a parse failure
returns none (the Go error return). -/
def timeFromUnixBytes (ub : List Char) (jit : Int) : Option Int :=
  match parseInt64 ub with
  | none => none
  | some ts => some (wrap64 (wrap64 (ts * oneMillisecond) + jit))

/-! ## Line classification and processing (stringProcessor, parser.go 211-232)

The kind-specific parsers (requestLineParser and friends) live outside the
given source file; they are abstracted as functions returning an optional
error message, with failure semantics per the spec (their errors arrive
unwrapped, so only the run-header wrap below can produce the fatal marker).
The unused gatlingVersion argument of the Go function is dropped. -/

structure Parsers where
  requestP : List Char → Option String
  groupP : List Char → Option String
  userP : List Char → Option String
  errorP : List Char → Option String
  runP : List Char → Option String

inductive LineKind
  | request
  | group
  | user
  | error
  | run
  | unknown
  deriving DecidableEq

/-- The switch of stringProcessor in source order: requestLine, groupLine,
userLine, errorLine, runLine, default. -/
def classify (s : List Char) : LineKind :=
  if requestLine s then LineKind.request
  else if groupLine s then LineKind.group
  else if userLine s then LineKind.user
  else if errorLine s then LineKind.error
  else if runLine s then LineKind.run
  else LineKind.unknown

inductive ProcResult
  | ok
  | nonFatal (msg : String)
  | fatal (msg : String)
  deriving DecidableEq

def procOfErr : Option String → ProcResult
  | none => ProcResult.ok
  | some m => ProcResult.nonFatal m

/-- Embeds stringProcessor: dispatch on the first matching pattern, return the
selected parser's error as-is, except that a run-header parse failure is
wrapped with the errFatal sentinel (fmt.Errorf with %w), and a line matching
no pattern yields the unknown-line error. -/
def stringProcessor (ps : Parsers) (lineBuffer : List Char) : ProcResult :=
  match classify lineBuffer with
  | LineKind.request => procOfErr (ps.requestP lineBuffer)
  | LineKind.group => procOfErr (ps.groupP lineBuffer)
  | LineKind.user => procOfErr (ps.userP lineBuffer)
  | LineKind.error => procOfErr (ps.errorP lineBuffer)
  | LineKind.run =>
    match ps.runP lineBuffer with
    | none => ProcResult.ok
    | some m => ProcResult.fatal (m ++ ": Fatal error")
  | LineKind.unknown => ProcResult.nonFatal "Unknown line type encountered"

/-- The parser outcome selected for a line by its classification (the spec's
notion of the line's kind-specific parsing result). -/
def kindParserResult (ps : Parsers) (s : List Char) : Option String :=
  match classify s with
  | LineKind.request => ps.requestP s
  | LineKind.group => ps.groupP s
  | LineKind.user => ps.userP s
  | LineKind.error => ps.errorP s
  | LineKind.run => ps.runP s
  | LineKind.unknown => some "Unknown line type encountered"

/-! ## Tailing read loop (fileProcessor, parser.go lines 234-281)

Each loop iteration observes: whether the context is cancelled, the current
time (time.Now in nanoseconds), and the bufio ReadBytes outcome — a complete
line (nil error), an EOF with a partial fragment, or another read error with
whatever data was returned.  waitTime is the configured stop-timeout in
seconds; the timeout test time.Now().After(startWait.Add(waitTime seconds))
is the strict comparison startWait + waitTime*1e9 < now. -/

inductive ReadEvent
  | line (b : List Char)
  | eofFrag (b : List Char)
  | readErr (b : List Char)
  deriving DecidableEq

structure PollInput where
  ctxDone : Bool
  now : Int
  ev : ReadEvent
  deriving DecidableEq

structure LoopState where
  buf : List Char
  startWait : Int
  deriving DecidableEq

inductive ExitReason
  | ctxCancelled
  | idleTimeout
  | fatalParse
  deriving DecidableEq

/-- One iteration of the ParseLoop: cancellation check first; on EOF either
stop (idle timeout strictly exceeded) or append the fragment to the buffer and
retry; otherwise append, process the buffered line, stop on a fatal processing
error, else reset the buffer and the idle timer. -/
def fileStep (ps : Parsers) (w : Nat) (st : LoopState) (inp : PollInput) :
    Sum ExitReason LoopState :=
  if inp.ctxDone then Sum.inl ExitReason.ctxCancelled
  else
    match inp.ev with
    | ReadEvent.eofFrag b =>
      if st.startWait + (w : Int) * 1000000000 < inp.now then
        Sum.inl ExitReason.idleTimeout
      else Sum.inr ⟨st.buf ++ b, st.startWait⟩
    | ReadEvent.line b =>
      match stringProcessor ps (st.buf ++ b) with
      | ProcResult.fatal _ => Sum.inl ExitReason.fatalParse
      | _ => Sum.inr ⟨[], inp.now⟩
    | ReadEvent.readErr b =>
      match stringProcessor ps (st.buf ++ b) with
      | ProcResult.fatal _ => Sum.inl ExitReason.fatalParse
      | _ => Sum.inr ⟨[], inp.now⟩

/-- The ParseLoop folded over a list of poll observations: returns the exit
reason (none while still tailing) and the loop state at exit. -/
def runLoop (ps : Parsers) (w : Nat) (st : LoopState) :
    List PollInput → Option ExitReason × LoopState
  | [] => (none, st)
  | i :: rest =>
    match fileStep ps w st i with
    | Sum.inl r => (some r, st)
    | Sum.inr st2 => runLoop ps w st2 rest

structure ProcOutcome where
  exit : Option ExitReason
  final : LoopState
  notifications : Nat
  deriving DecidableEq

/-- Embeds fileProcessor: run the loop, then send on parserStopped exactly
once after the loop exits (and not before). -/
def fileProcessor (ps : Parsers) (w : Nat) (st : LoopState)
    (polls : List PollInput) : ProcOutcome :=
  let r := runLoop ps w st polls
  ⟨r.1, r.2, if r.1.isSome then 1 else 0⟩

/-- Fragment carried by an EOF poll, used to state the no-byte-loss property. -/
def fragOf (i : PollInput) : List Char :=
  match i.ev with
  | ReadEvent.eofFrag b => b
  | _ => []

/-! ## Shutdown orchestration (RunMain FinisherLoop, parser.go lines 342-355)

The select loop observes, one per iteration, either the top-level context
becoming done or the parserStopped notification; it reacts with pCancel
(cancel the parser context) on the former and with iCancel then pCancel and
loop exit on the latter. -/

inductive FinEvent
  | ctxDone
  | parserStoppedEv
  deriving DecidableEq

inductive FinAction
  | pCancel
  | iCancel
  deriving DecidableEq

def finisherLoop : List FinEvent → List FinAction
  | [] => []
  | FinEvent.ctxDone :: rest => FinAction.pCancel :: finisherLoop rest
  | FinEvent.parserStoppedEv :: _ => [FinAction.iCancel, FinAction.pCancel]

/-! ## Log-file wait (waitForLog, parser.go lines 166-199) -/

structure FileMode where
  regular : Bool
  perm : Nat
  deriving DecidableEq

inductive StatResult
  | notExist
  | statErr (e : String)
  | info (m : FileMode)
  deriving DecidableEq

inductive PollOutcome
  | stoppedByUser
  | fatalErr (e : String)
  | found
  | retry
  deriving DecidableEq

/-- One iteration of waitForLog: stop signal first; a Stat error other than
not-exists is returned; not-exists retries; otherwise the file is accepted iff
Mode().IsRegular() and (on windows always, elsewhere Mode().Perm() >= 420,
i.e. the permission bits compare numerically at least 0644); any other
existing file is a non-retryable error. -/
def waitForLogStep (isWindows ctxDone : Bool) (st : StatResult) : PollOutcome :=
  if ctxDone then PollOutcome.stoppedByUser
  else
    match st with
    | StatResult.statErr e => PollOutcome.fatalErr e
    | StatResult.notExist => PollOutcome.retry
    | StatResult.info m =>
      if m.regular && (isWindows || decide (420 ≤ m.perm)) then PollOutcome.found
      else PollOutcome.fatalErr "Something wrong happened when attempting to open simulation.log"

/-- The waitForLog polling loop over a list of (ctxDone, Stat) observations;
none means the loop is still retrying after consuming the whole list. -/
def waitForLog (isWindows : Bool) : List (Bool × StatResult) → Option PollOutcome
  | [] => none
  | (cd, st) :: rest =>
    match waitForLogStep isWindows cd st with
    | PollOutcome.retry => waitForLog isWindows rest
    | PollOutcome.stoppedByUser => some PollOutcome.stoppedByUser
    | PollOutcome.fatalErr e => some (PollOutcome.fatalErr e)
    | PollOutcome.found => some PollOutcome.found

/-- Modelled from the spec: the spec's acceptance condition that the log file
be group and other readable, i.e. the POSIX group-read bit (0o040 = 32) and
other-read bit (0o004 = 4) are both set in the permission bits.  Stated only
to compare the code's numeric check against the spec's words. -/
def specGroupOtherReadable (p : Nat) : Bool :=
  ((p / 32) % 2 == 1) && ((p / 4) % 2 == 1)

/-! ## Target-directory wait (lookupTargetDir, parser.go lines 82-114) -/

inductive DirStat
  | notExist
  | statErr (e : String)
  | info (isDir : Bool)
  deriving DecidableEq

/-- One iteration of lookupTargetDir: stop signal first; a Stat error other
than not-exists is fatal; not-exists retries; an existing non-directory is
fatal; a directory succeeds. -/
def lookupTargetDirStep (ctxDone : Bool) (st : DirStat) : PollOutcome :=
  if ctxDone then PollOutcome.stoppedByUser
  else
    match st with
    | DirStat.statErr e => PollOutcome.fatalErr ("Target path exists but there is an error: " ++ e)
    | DirStat.notExist => PollOutcome.retry
    | DirStat.info d =>
      if d then PollOutcome.found
      else PollOutcome.fatalErr "Was expecting directory, but found a file"

/-- The lookupTargetDir polling loop over (ctxDone, Stat) observations. -/
def lookupTargetDir : List (Bool × DirStat) → Option PollOutcome
  | [] => none
  | (cd, st) :: rest =>
    match lookupTargetDirStep cd st with
    | PollOutcome.retry => lookupTargetDir rest
    | PollOutcome.stoppedByUser => some PollOutcome.stoppedByUser
    | PollOutcome.fatalErr e => some (PollOutcome.fatalErr e)
    | PollOutcome.found => some PollOutcome.found

/-! ## Resolver phase of RunMain (parser.go lines 310-332) -/

inductive ResolverOutcome
  | ok
  | stoppedByUser
  | failed (e : String)
  deriving DecidableEq

inductive MainOutcome
  | cleanReturn
  | exitFailure
  | proceedToPipeline
  deriving DecidableEq

/-- Embeds the three sequential resolver calls in RunMain: each stage's
errStoppedByUser causes a plain return, any other error causes os.Exit(1),
success falls through to the next stage and finally to the concurrent
pipeline. -/
def resolverPhase (r1 r2 r3 : ResolverOutcome) : MainOutcome :=
  match r1 with
  | ResolverOutcome.stoppedByUser => MainOutcome.cleanReturn
  | ResolverOutcome.failed _ => MainOutcome.exitFailure
  | ResolverOutcome.ok =>
    match r2 with
    | ResolverOutcome.stoppedByUser => MainOutcome.cleanReturn
    | ResolverOutcome.failed _ => MainOutcome.exitFailure
    | ResolverOutcome.ok =>
      match r3 with
      | ResolverOutcome.stoppedByUser => MainOutcome.cleanReturn
      | ResolverOutcome.failed _ => MainOutcome.exitFailure
      | ResolverOutcome.ok => MainOutcome.proceedToPipeline

/-- Results-directory name used in the C1 scenario statements. -/
def dirNameOK : List Char :=
  ['r', 'u', 'n', '-', '1', '2', '3', '4', '5', '6', '7', '8', '9', '0', '1',
   '2', '3', '4', '5', '6', '7']

/-! ## Concrete parser bundles used by witnesses and counterexamples -/

def psAllOk : Parsers :=
  ⟨fun _ => none, fun _ => none, fun _ => none, fun _ => none, fun _ => none⟩

def psUserFails : Parsers :=
  ⟨fun _ => none, fun _ => none, fun _ => some "bad user line", fun _ => none,
   fun _ => none⟩

def psRunFails : Parsers :=
  ⟨fun _ => none, fun _ => none, fun _ => none, fun _ => none,
   fun _ => some "bad run line"⟩

end Gatling

namespace Gatling

/-! ## Helper lemmas -/

theorem kwPrefixMatch_cons {k : Char} {ks s : List Char}
    (h : kwPrefixMatch (k :: ks) s = true) :
    ∃ rest, s = k :: rest ∧ kwPrefixMatch ks rest = true := by
  cases s with
  | nil => simp [kwPrefixMatch] at h
  | cons c rest =>
    simp only [kwPrefixMatch, Bool.and_eq_true, beq_iff_eq] at h
    exact ⟨rest, by rw [h.1], h.2⟩

theorem wrap64_eq_self {x : Int} (h1 : -(2 ^ 63) ≤ x) (h2 : x ≤ 2 ^ 63 - 1) :
    wrap64 x = x := by
  unfold wrap64
  rw [Int.emod_eq_of_lt (by linarith) (by linarith)]
  ring

theorem walkFunc_char (st : Int) (p : List Char) (fi : FileInfo) :
    walkFunc st p (some fi) none =
      if isCandidate st fi = true then Except.ok (WalkRet.found p)
      else Except.ok WalkRet.next := by
  unfold walkFunc isCandidate
  by_cases h1 : (fi.isDir && resultDirNameMatch fi.name) = true <;>
    by_cases h2 : st - 60 < fi.modTimeUnix <;>
    simp [h1, h2]

/-! ## C10 -/

/-- C10: the directory-walk callback ignores the error argument passed by the
traversal (its result is independent of it) and unconditionally calls methods
on the FileInfo argument, so on a traversal input carrying a nil FileInfo
(which filepath.Walk passes alongside an error) the callback dereferences nil
rather than handling or propagating the error. -/
theorem C10_walkFunc_nil_deref :
    (∀ (st : Int) (p : List Char) (info : Option FileInfo) (e1 e2 : Option String),
       walkFunc st p info e1 = walkFunc st p info e2) ∧
    (∀ (st : Int) (p : List Char) (e : Option String),
       walkFunc st p none e = Except.error ()) := by
  constructor
  · intro st p info e1 e2; rfl
  · intro st p e; rfl

/-! ## C3 -/

/-- C3: for every interleaving of external-stop and tailer-completion events
observed by the orchestrator's finisher loop, the sink cancellation (iCancel)
is requested only after the tailer's completion notification (parserStopped)
has been observed, never before. -/
theorem C3_shutdown_ordering :
    (∀ evs : List FinEvent, FinEvent.parserStoppedEv ∉ evs →
       FinAction.iCancel ∉ finisherLoop evs) ∧
    (∀ evs : List FinEvent, FinAction.iCancel ∈ finisherLoop evs →
       FinEvent.parserStoppedEv ∈ evs) := by
  have key : ∀ evs : List FinEvent, FinAction.iCancel ∈ finisherLoop evs →
      FinEvent.parserStoppedEv ∈ evs := by
    intro evs
    induction evs with
    | nil => intro h; simp [finisherLoop] at h
    | cons e rest ih =>
      cases e with
      | ctxDone =>
        intro h
        simp only [finisherLoop, List.mem_cons] at h
        rcases h with h | h
        · exact absurd h (by decide)
        · exact List.mem_cons_of_mem _ (ih h)
      | parserStoppedEv =>
        intro _
        exact List.mem_cons_self _ _
  exact ⟨fun evs hne hmem => hne (key evs hmem), key⟩

theorem C3_witness : FinAction.iCancel ∉ finisherLoop [FinEvent.ctxDone] :=
  C3_shutdown_ordering.1 [FinEvent.ctxDone] (by decide)

/-! ## C9 -/

/-- C9: observing the external stop signal at any polling point of the
target-directory lookup loop yields the stopped-by-user outcome, which RunMain
maps to a plain clean return at every resolver stage, while every other
resolver failure is mapped to a failure exit. -/
theorem C9_stopped_by_user_clean :
    (∀ (pre : List (Bool × DirStat)) (st : DirStat) (rest : List (Bool × DirStat)),
       (∀ x ∈ pre, lookupTargetDirStep x.1 x.2 = PollOutcome.retry) →
       lookupTargetDir (pre ++ (true, st) :: rest) = some PollOutcome.stoppedByUser) ∧
    (∀ r2 r3, resolverPhase ResolverOutcome.stoppedByUser r2 r3 = MainOutcome.cleanReturn) ∧
    (∀ r3, resolverPhase ResolverOutcome.ok ResolverOutcome.stoppedByUser r3 =
       MainOutcome.cleanReturn) ∧
    (resolverPhase ResolverOutcome.ok ResolverOutcome.ok ResolverOutcome.stoppedByUser =
       MainOutcome.cleanReturn) ∧
    (∀ e r2 r3, resolverPhase (ResolverOutcome.failed e) r2 r3 = MainOutcome.exitFailure) ∧
    (∀ e r3, resolverPhase ResolverOutcome.ok (ResolverOutcome.failed e) r3 =
       MainOutcome.exitFailure) ∧
    (∀ e, resolverPhase ResolverOutcome.ok ResolverOutcome.ok (ResolverOutcome.failed e) =
       MainOutcome.exitFailure) ∧
    (∀ st : DirStat, lookupTargetDirStep true st = PollOutcome.stoppedByUser) ∧
    (∀ (iw : Bool) (st : StatResult), waitForLogStep iw true st = PollOutcome.stoppedByUser) := by
  refine ⟨?_, fun r2 r3 => rfl, fun r3 => rfl, rfl, fun e r2 r3 => rfl,
    fun e r3 => rfl, fun e => rfl, fun st => rfl, fun iw st => rfl⟩
  intro pre st rest hpre
  induction pre with
  | nil => simp [lookupTargetDir, lookupTargetDirStep]
  | cons x xs ih =>
    obtain ⟨cd, ds⟩ := x
    have hx : lookupTargetDirStep cd ds = PollOutcome.retry :=
      hpre (cd, ds) (List.mem_cons_self _ _)
    rw [List.cons_append, lookupTargetDir, hx]
    exact ih fun y hy => hpre y (List.mem_cons_of_mem _ hy)

theorem C9_witness :
    lookupTargetDir [(false, DirStat.notExist), (true, DirStat.notExist)] =
      some PollOutcome.stoppedByUser := by
  have h := C9_stopped_by_user_clean.1 [(false, DirStat.notExist)] DirStat.notExist []
  exact h (by decide)

/-! ## C1 -/

/-- C1 counterexample: a directory whose name matches the pattern and whose
modification time equals start-time minus 60 seconds exactly (so it is at the
bound the claim says is still acceptable) is not selected by the walk, because
the code compares with strict greater-than. -/
theorem C1_counterexample :
    resultDirNameMatch dirNameOK = true ∧
    ((-60 : Int) ≥ 0 - 60) ∧
    walkSelect 0 [(['p'], ⟨dirNameOK, true, -60⟩)] = none := by decide

/-- C1 (amended): a directory entry is selected iff it is a directory whose
name matches the results pattern and whose modification time is strictly
greater than start-time minus 60 seconds; the first such candidate in
traversal order is selected, and once a selection is made the remainder of the
traversal is never consulted. -/
theorem C1_results_dir_selection (st : Int) (entries more : List (List Char × FileInfo)) :
    walkSelect st entries = (entries.find? fun e => isCandidate st e.2).map Prod.fst ∧
    ((walkSelect st entries).isSome →
       walkSelect st (entries ++ more) = walkSelect st entries) := by
  constructor
  · induction entries with
    | nil => rfl
    | cons e rest ih =>
      obtain ⟨p, fi⟩ := e
      by_cases hc : isCandidate st fi = true
      · have hfind : List.find? (fun e : List Char × FileInfo => isCandidate st e.2)
            ((p, fi) :: rest) = some (p, fi) := List.find?_cons_of_pos _ hc
        rw [walkSelect, walkFunc_char, if_pos hc, hfind]
        rfl
      · have hfind : List.find? (fun e : List Char × FileInfo => isCandidate st e.2)
            ((p, fi) :: rest) = List.find? (fun e => isCandidate st e.2) rest :=
          List.find?_cons_of_neg _ hc
        rw [walkSelect, walkFunc_char, if_neg hc, hfind]
        exact ih
  · induction entries with
    | nil => intro h; simp [walkSelect] at h
    | cons e rest ih =>
      obtain ⟨p, fi⟩ := e
      intro h
      by_cases hc : isCandidate st fi = true
      · rw [List.cons_append, walkSelect, walkFunc_char, if_pos hc,
          walkSelect, walkFunc_char, if_pos hc]
      · rw [walkSelect, walkFunc_char, if_neg hc] at h
        rw [List.cons_append, walkSelect, walkFunc_char, if_neg hc,
          walkSelect, walkFunc_char, if_neg hc]
        exact ih h

theorem C1_witness :
    walkSelect 0 ([(['p'], ⟨dirNameOK, true, 10⟩)] ++ [(['q'], ⟨dirNameOK, true, 10⟩)]) =
      walkSelect 0 [(['p'], ⟨dirNameOK, true, 10⟩)] := by
  have h := (C1_results_dir_selection 0 [(['p'], ⟨dirNameOK, true, 10⟩)]
    [(['q'], ⟨dirNameOK, true, 10⟩)]).2
  exact h (by decide)

end Gatling

namespace Gatling

/-! ## C2 -/

/-- C2 counterexample: at an end-of-file poll whose elapsed time since the
last complete line equals the configured threshold exactly (w = 5s, elapsed =
5000000000 ns), the loop continues instead of stopping, because the code tests
time.Now().After, a strict comparison. -/
theorem C2_counterexample :
    fileStep psAllOk 5 ⟨[], 0⟩ ⟨false, 5000000000, ReadEvent.eofFrag []⟩ =
      Sum.inr (⟨[], 0⟩ : LoopState) ∧
    (5000000000 : Int) - 0 = (5 : Int) * 1000000000 := by decide

/-- C2 (amended): at an end-of-file poll, if the elapsed time since the last
complete line is at most the configured threshold the loop continues (the
fragment is buffered for a retry); strictly past the threshold the loop stops
with the idle-timeout exit; the completion notification is emitted exactly
once, precisely when the loop has exited; and once exited the loop consumes no
further input. -/
theorem C2_idle_timeout (ps : Parsers) (w : Nat) (st : LoopState) (b : List Char)
    (now : Int) :
    (now ≤ st.startWait + (w : Int) * 1000000000 →
       fileStep ps w st ⟨false, now, ReadEvent.eofFrag b⟩ =
         Sum.inr ⟨st.buf ++ b, st.startWait⟩) ∧
    (st.startWait + (w : Int) * 1000000000 < now →
       fileStep ps w st ⟨false, now, ReadEvent.eofFrag b⟩ =
         Sum.inl ExitReason.idleTimeout) ∧
    (∀ (st0 : LoopState) (polls : List PollInput),
       (fileProcessor ps w st0 polls).notifications =
         if (fileProcessor ps w st0 polls).exit.isSome then 1 else 0) ∧
    (∀ (st0 : LoopState) (polls more : List PollInput),
       (runLoop ps w st0 polls).1.isSome →
       runLoop ps w st0 (polls ++ more) = runLoop ps w st0 polls) := by
  refine ⟨?_, ?_, ?_, ?_⟩
  · intro h
    simp [fileStep, not_lt.mpr h]
  · intro h
    simp [fileStep, h]
  · intro st0 polls
    rfl
  · intro st0 polls more
    induction polls generalizing st0 with
    | nil =>
      intro h
      simp [runLoop] at h
    | cons i rest ih =>
      intro h
      cases hs : fileStep ps w st0 i with
      | inl r =>
        rw [List.cons_append, runLoop, hs, runLoop, hs]
      | inr st2 =>
        rw [runLoop, hs] at h
        rw [List.cons_append, runLoop, hs, runLoop, hs]
        exact ih st2 h

theorem C2_witness :
    fileStep psAllOk 5 ⟨[], 0⟩ ⟨false, 3, ReadEvent.eofFrag ['a']⟩ =
      Sum.inr ⟨['a'], 0⟩ ∧
    fileStep psAllOk 5 ⟨[], 0⟩ ⟨false, 6000000000, ReadEvent.eofFrag ['a']⟩ =
      Sum.inl ExitReason.idleTimeout := by
  refine ⟨?_, ?_⟩
  · exact (C2_idle_timeout psAllOk 5 ⟨[], 0⟩ ['a'] 3).1 (by norm_num)
  · exact (C2_idle_timeout psAllOk 5 ⟨[], 0⟩ ['a'] 6000000000).2.1 (by norm_num)

/-! ## C8 -/

/-- C8 counterexample: an end-of-file poll that trips the idle timeout exits
the loop without appending the partial fragment just read (here the nonempty
fragment x), because the timeout check and break precede the buffer write; the
loop state at exit still has the empty buffer. -/
theorem C8_counterexample :
    runLoop psAllOk 1 ⟨[], 0⟩ [⟨false, 2000000000, ReadEvent.eofFrag ['x']⟩] =
      (some ExitReason.idleTimeout, (⟨[], 0⟩ : LoopState)) ∧
    (['x'] : List Char) ≠ [] := by decide

/-- C8 (amended): across every sequence of end-of-file polls on which the loop
keeps tailing (no stop signal, idle timeout not exceeded), each partial
fragment is appended to the accumulating buffer in order, so no bytes read are
lost while the loop continues; only the fragment of a timeout-exit poll is
discarded together with the loop (see the counterexample). -/
theorem C8_no_byte_loss (ps : Parsers) (w : Nat) (st : LoopState)
    (polls : List PollInput)
    (h : ∀ i ∈ polls, i.ctxDone = false ∧
         i.now ≤ st.startWait + (w : Int) * 1000000000 ∧
         ∃ b, i.ev = ReadEvent.eofFrag b) :
    runLoop ps w st polls =
      (none, ⟨st.buf ++ (polls.map fragOf).flatten, st.startWait⟩) := by
  induction polls generalizing st with
  | nil => simp [runLoop]
  | cons i rest ih =>
    obtain ⟨hcd, hnow, b, hev⟩ := h i (List.mem_cons_self _ _)
    have hstep : fileStep ps w st i = Sum.inr ⟨st.buf ++ b, st.startWait⟩ := by
      simp [fileStep, hcd, hev, not_lt.mpr hnow]
    rw [runLoop, hstep]
    have hrec := ih ⟨st.buf ++ b, st.startWait⟩ (fun j hj => by
      obtain ⟨h1, h2, h3⟩ := h j (List.mem_cons_of_mem _ hj)
      exact ⟨h1, by simpa using h2, h3⟩)
    show runLoop ps w ⟨st.buf ++ b, st.startWait⟩ rest = _
    rw [hrec]
    simp [fragOf, hev, List.append_assoc]

theorem C8_witness :
    runLoop psAllOk 5 ⟨[], 0⟩ [⟨false, 1, ReadEvent.eofFrag ['a']⟩] =
      (none, (⟨['a'], 0⟩ : LoopState)) := by
  have h := C8_no_byte_loss psAllOk 5 ⟨[], 0⟩
    [⟨false, 1, ReadEvent.eofFrag ['a']⟩]
    (by
      intro i hi
      simp only [List.mem_singleton] at hi
      subst hi
      exact ⟨rfl, by norm_num, ['a'], rfl⟩)
  simpa using h

/-! ## C5 -/

/-- C5: when a line's kind-specific parsing fails, a User, Request, Group or
Error record (or a line matching no kind) yields a non-fatal error and the
read loop continues with the next line (buffer cleared, idle timer reset),
while a Run-header parse failure is wrapped as fatal and stops the read loop
entirely. -/
theorem C5_parse_failure_handling (ps : Parsers) (w : Nat) (st : LoopState)
    (now : Int) (b : List Char) :
    (∀ m, classify (st.buf ++ b) ≠ LineKind.run →
       kindParserResult ps (st.buf ++ b) = some m →
       stringProcessor ps (st.buf ++ b) = ProcResult.nonFatal m ∧
       fileStep ps w st ⟨false, now, ReadEvent.line b⟩ = Sum.inr ⟨[], now⟩) ∧
    (∀ m, classify (st.buf ++ b) = LineKind.run →
       ps.runP (st.buf ++ b) = some m →
       stringProcessor ps (st.buf ++ b) = ProcResult.fatal (m ++ ": Fatal error") ∧
       fileStep ps w st ⟨false, now, ReadEvent.line b⟩ =
         Sum.inl ExitReason.fatalParse) := by
  constructor
  · intro m hnr hk
    have hsp : stringProcessor ps (st.buf ++ b) = ProcResult.nonFatal m := by
      unfold stringProcessor
      unfold kindParserResult at hk
      cases hc : classify (st.buf ++ b)
      case run => exact absurd hc hnr
      all_goals simp_all [procOfErr]
    exact ⟨hsp, by simp [fileStep, hsp]⟩
  · intro m hr hk
    have hsp : stringProcessor ps (st.buf ++ b) =
        ProcResult.fatal (m ++ ": Fatal error") := by
      unfold stringProcessor
      rw [hr, hk]
    exact ⟨hsp, by simp [fileStep, hsp]⟩

theorem C5_witness :
    (stringProcessor psUserFails ['U', 'S', 'E', 'R', '\t', '1', '\n'] =
       ProcResult.nonFatal "bad user line" ∧
     fileStep psUserFails 5 ⟨[], 0⟩
       ⟨false, 7, ReadEvent.line ['U', 'S', 'E', 'R', '\t', '1', '\n']⟩ =
       Sum.inr ⟨[], 7⟩) ∧
    (stringProcessor psRunFails ['R', 'U', 'N', '\t', 'x', '\n'] =
       ProcResult.fatal "bad run line: Fatal error" ∧
     fileStep psRunFails 5 ⟨[], 0⟩
       ⟨false, 7, ReadEvent.line ['R', 'U', 'N', '\t', 'x', '\n']⟩ =
       Sum.inl ExitReason.fatalParse) := by
  constructor
  · exact (C5_parse_failure_handling psUserFails 5 ⟨[], 0⟩ 7
      ['U', 'S', 'E', 'R', '\t', '1', '\n']).1 "bad user line" (by decide) (by decide)
  · exact (C5_parse_failure_handling psRunFails 5 ⟨[], 0⟩ 7
      ['R', 'U', 'N', '\t', 'x', '\n']).2 "bad run line" (by decide) (by decide)

end Gatling

namespace Gatling

/-! ## C4 -/

theorem kwPrefixMatch_excl {k1 k2 : Char} {ks1 ks2 s : List Char} (hne : k1 ≠ k2)
    (h1 : kwPrefixMatch (k1 :: ks1) s = true) :
    kwPrefixMatch (k2 :: ks2) s = false := by
  obtain ⟨rest, hs, _⟩ := kwPrefixMatch_cons h1
  subst hs
  have hb : (k2 == k1) = false := beq_eq_false_iff_ne.mpr (Ne.symm hne)
  simp [kwPrefixMatch, hb]

theorem kwPrefixMatch_excl2 {k k2a k2b : Char} {ks1 ks2 s : List Char}
    (hne : k2a ≠ k2b) (h1 : kwPrefixMatch (k :: k2a :: ks1) s = true) :
    kwPrefixMatch (k :: k2b :: ks2) s = false := by
  obtain ⟨rest, hs, h1'⟩ := kwPrefixMatch_cons h1
  subst hs
  obtain ⟨rest2, hs2, _⟩ := kwPrefixMatch_cons h1'
  subst hs2
  have hb : (k2b == k2a) = false := beq_eq_false_iff_ne.mpr (Ne.symm hne)
  simp [kwPrefixMatch, hb]

/-- C4 counterexample: the line USER followed by a tab, the token GROUP and
another tab matches both the User pattern (anchored ^USER\s) and the Group
pattern (unanchored GROUP\s), so more than one of the five record-kind
patterns can match a single line. -/
theorem C4_counterexample :
    userLine ['U', 'S', 'E', 'R', '\t', 'G', 'R', 'O', 'U', 'P', '\t', '1'] = true ∧
    groupLine ['U', 'S', 'E', 'R', '\t', 'G', 'R', 'O', 'U', 'P', '\t', '1'] = true := by
  decide

/-- C4 (amended): the four anchored patterns (User, Request, Run-header,
Error) are pairwise exclusive, but the unanchored Group pattern may co-match a
line matching another pattern; classification is nevertheless deterministic
because the classifier tries the patterns in the fixed switch order (Request,
Group, User, Error, Run), and a line matching none of the five yields the
classification-failure result. -/
theorem C4_pattern_disambiguation (s : List Char) :
    (userLine s = true →
       requestLine s = false ∧ runLine s = false ∧ errorLine s = false) ∧
    (requestLine s = true →
       runLine s = false ∧ errorLine s = false ∧ userLine s = false) ∧
    (runLine s = true →
       errorLine s = false ∧ userLine s = false ∧ requestLine s = false) ∧
    (errorLine s = true →
       userLine s = false ∧ requestLine s = false ∧ runLine s = false) ∧
    (classify s = LineKind.group ↔ groupLine s = true ∧ requestLine s = false) ∧
    (classify s = LineKind.unknown ↔
       requestLine s = false ∧ groupLine s = false ∧ userLine s = false ∧
       errorLine s = false ∧ runLine s = false) := by
  refine ⟨?_, ?_, ?_, ?_, ?_, ?_⟩
  · intro h
    exact ⟨kwPrefixMatch_excl (by decide) h, kwPrefixMatch_excl (by decide) h,
      kwPrefixMatch_excl (by decide) h⟩
  · intro h
    exact ⟨kwPrefixMatch_excl2 (by decide) h, kwPrefixMatch_excl (by decide) h,
      kwPrefixMatch_excl (by decide) h⟩
  · intro h
    exact ⟨kwPrefixMatch_excl (by decide) h, kwPrefixMatch_excl (by decide) h,
      kwPrefixMatch_excl2 (by decide) h⟩
  · intro h
    exact ⟨kwPrefixMatch_excl (by decide) h, kwPrefixMatch_excl (by decide) h,
      kwPrefixMatch_excl (by decide) h⟩
  · unfold classify
    split_ifs <;> simp_all
  · unfold classify
    split_ifs <;> simp_all

theorem C4_witness :
    requestLine ['U', 'S', 'E', 'R', '\t', '1'] = false ∧
    classify ['G', 'R', 'O', 'U', 'P', '\t', '1'] = LineKind.group := by
  constructor
  · exact ((C4_pattern_disambiguation ['U', 'S', 'E', 'R', '\t', '1']).1
      (by decide)).1
  · exact (C4_pattern_disambiguation
      ['G', 'R', 'O', 'U', 'P', '\t', '1']).2.2.2.2.1.mpr ⟨by decide, by decide⟩

/-! ## C6 -/

/-- C6 counterexample: the byte string of 10^16 (which parses as a decimal
64-bit integer) overflows the int64 multiplication by 10^6 nanoseconds, so
even with jitter 0 (a value inside [0, 1ms)) the converted event time is not
the source milliseconds plus the jitter. -/
theorem C6_counterexample :
    parseInt64 ['1', '0', '0', '0', '0', '0', '0', '0', '0', '0', '0', '0', '0',
      '0', '0', '0', '0'] = some 10000000000000000 ∧
    (0 : Int) ≤ 0 ∧ (0 : Int) < 1000000 ∧
    timeFromUnixBytes ['1', '0', '0', '0', '0', '0', '0', '0', '0', '0', '0',
      '0', '0', '0', '0', '0', '0'] 0 ≠
      some ((10000000000000000 : Int) * oneMillisecond + 0) := by decide

/-- C6 (amended): for every byte string parsing as a decimal 64-bit integer t
whose nanosecond value does not overflow int64, the converted event time is
exactly t milliseconds plus the jitter draw, which lies in [0, 1ms); any two
distinct such timestamps keep their strict order after jittering; a byte
string that is not a decimal integer fails to convert.  For t large enough
that t multiplied by 10^6 overflows int64 the equation fails (see the
counterexample). -/
theorem C6_jitter_conversion :
    (∀ (ub : List Char) (t jit : Int), parseInt64 ub = some t →
       0 ≤ jit → jit < 1000000 →
       -(2 ^ 63) ≤ t * oneMillisecond → t * oneMillisecond + 999999 ≤ 2 ^ 63 - 1 →
       timeFromUnixBytes ub jit = some (t * oneMillisecond + jit)) ∧
    (∀ t1 t2 j1 j2 : Int, t1 < t2 → 0 ≤ j1 → j1 < 1000000 → 0 ≤ j2 →
       j2 < 1000000 →
       t1 * oneMillisecond + j1 < t2 * oneMillisecond + j2) ∧
    (∀ (ub : List Char) (jit : Int), parseInt64 ub = none →
       timeFromUnixBytes ub jit = none) := by
  refine ⟨?_, ?_, ?_⟩
  · intro ub t jit hp hj0 hj1 hlo hhi
    have h1 : wrap64 (t * oneMillisecond) = t * oneMillisecond :=
      wrap64_eq_self hlo (by linarith)
    have h2 : wrap64 (t * oneMillisecond + jit) = t * oneMillisecond + jit :=
      wrap64_eq_self (by linarith) (by linarith)
    simp only [timeFromUnixBytes, hp, h1, h2]
  · intro t1 t2 j1 j2 ht hj10 hj11 hj20 hj21
    simp only [oneMillisecond]
    have key : (t1 + 1) * 1000000 ≤ t2 * 1000000 :=
      mul_le_mul_of_nonneg_right (by linarith) (by norm_num)
    rw [add_mul, one_mul] at key
    linarith
  · intro ub jit hp
    simp only [timeFromUnixBytes, hp]

theorem C6_witness :
    timeFromUnixBytes ['1', '7', '0', '0', '0', '0', '0', '0', '0', '0', '0',
      '0', '0'] 5 = some (1700000000000 * oneMillisecond + 5) := by
  have h := C6_jitter_conversion.1
    ['1', '7', '0', '0', '0', '0', '0', '0', '0', '0', '0', '0', '0']
    1700000000000 5 (by decide) (by decide) (by decide) (by decide) (by decide)
  exact h

/-! ## C7 -/

/-- C7 counterexample: a regular file with permission bits 0700 (numerically
448) is accepted by the wait-for-log check even though it is not group or
other readable, because the code compares the permission bits numerically
against 420 (0644) instead of testing the read bits. -/
theorem C7_counterexample :
    waitForLogStep false false (StatResult.info ⟨true, 448⟩) = PollOutcome.found ∧
    specGroupOtherReadable 448 = false := by decide

/-- C7 (amended): the wait-for-log poll succeeds exactly when no stop was
requested and the path exists as a regular file that, off Windows, has
permission bits numerically at least 0644 (not the group/other-readable bit
test of the claim); it retries exactly while the path does not exist (and so
keeps polling on any run of not-exists observations); an existing path failing
the mode check produces a non-retryable error. -/
theorem C7_log_file_wait (isWindows ctxDone : Bool) (st : StatResult) :
    (waitForLogStep isWindows ctxDone st = PollOutcome.found ↔
       ctxDone = false ∧ ∃ m, st = StatResult.info m ∧ m.regular = true ∧
         (isWindows = true ∨ 420 ≤ m.perm)) ∧
    (waitForLogStep isWindows ctxDone st = PollOutcome.retry ↔
       ctxDone = false ∧ st = StatResult.notExist) ∧
    (∀ polls : List (Bool × StatResult),
       (∀ x ∈ polls, x = ((false, StatResult.notExist) : Bool × StatResult)) →
       waitForLog isWindows polls = none) := by
  refine ⟨?_, ?_, ?_⟩
  · constructor
    · intro h
      unfold waitForLogStep at h
      cases ctxDone with
      | true => simp at h
      | false =>
        cases st with
        | notExist => simp at h
        | statErr e => simp at h
        | info m =>
          simp only [Bool.false_eq_true, if_false] at h
          split_ifs at h with hc
          rw [Bool.and_eq_true, Bool.or_eq_true, decide_eq_true_eq] at hc
          exact ⟨rfl, m, rfl, hc.1, hc.2⟩
    · rintro ⟨hcd, m, hst, hreg, hw⟩
      subst hcd
      subst hst
      have hc : (m.regular && (isWindows || decide (420 ≤ m.perm))) = true := by
        rw [Bool.and_eq_true, Bool.or_eq_true, decide_eq_true_eq]
        exact ⟨hreg, hw⟩
      simp [waitForLogStep, hc]
  · constructor
    · intro h
      unfold waitForLogStep at h
      cases ctxDone with
      | true => simp at h
      | false =>
        cases st with
        | notExist => exact ⟨rfl, rfl⟩
        | statErr e => simp at h
        | info m =>
          simp only [Bool.false_eq_true, if_false] at h
          split_ifs at h
    · rintro ⟨hcd, hst⟩
      subst hcd
      subst hst
      rfl
  · intro polls hall
    induction polls with
    | nil => rfl
    | cons x rest ih =>
      have hx := hall x (List.mem_cons_self _ _)
      subst hx
      show waitForLog isWindows rest = none
      exact ih fun y hy => hall y (List.mem_cons_of_mem _ hy)

theorem C7_witness :
    waitForLogStep false false (StatResult.info ⟨true, 420⟩) = PollOutcome.found := by
  have h := (C7_log_file_wait false false (StatResult.info ⟨true, 420⟩)).1
  exact h.mpr ⟨rfl, ⟨⟨true, 420⟩, rfl, rfl, Or.inr (by norm_num)⟩⟩

end Gatling
